import Mathlib

/-!
Verification of the PharmaFlow pipeline core: a shallow embedding of
`classifyPatientRisk` (src/services/geminiService.ts), the validation-metrics
computation (src/components/AnalysisDashboard.tsx) and the schema-inference
column mapper (src/components/FileUpload.tsx), together with theorems settling
the specified properties.

Randomness (`Math.random()` draws) is modelled by explicit injectable sources:
a shuffle function on lists and two rational-valued streams indexed by subject
position.  Scores are rationals; JS numeric comparisons become rational
comparisons.
-/

namespace PharmaFlow

/-- Risk categories, from `riskCategory?: 'High' | 'Medium' | 'Low'` in
src/types.ts. -/
inductive RiskCategory
  | High
  | Medium
  | Low
deriving DecidableEq

/-- Train/test split labels, from `split?: 'TRAIN' | 'TEST'` in src/types.ts. -/
inductive Split
  | TRAIN
  | TEST
deriving DecidableEq

/-- Model type, from `type ModelType` in src/types.ts. -/
inductive ModelType
  | GENAI_REASONING
  | XGBOOST
deriving DecidableEq

/-- Imbalance strategy, from `type ImbalanceStrategy` in src/types.ts. -/
inductive ImbalanceStrategy
  | NONE
  | CLASS_WEIGHTS
  | SMOTE
deriving DecidableEq

/-- Canonical patient record, from `interface PatientProfile` in src/types.ts.
Optional post-inference fields are `Option`s, mirroring the `?` fields. -/
structure PatientProfile where
  id : String
  age : Int
  gender : String
  diagnosisCode : String
  currentTherapyLine : Int
  monthsOnCurrentTherapy : Int
  lastVisitDate : String
  npiSpecialty : String
  drugId : String
  doctorName : String
  npiId : String
  riskScore : Option ℚ
  riskCategory : Option RiskCategory
  split : Option Split
  actualOutcome : Option Bool
deriving DecidableEq

/-- Cohort configuration, from `interface CohortConfig` in src/types.ts. -/
structure CohortConfig where
  lookbackMonths : Int
  predictionWindowMonths : Int
  minClaimsCount : Int
  modelType : ModelType
  imbalanceStrategy : ImbalanceStrategy
  trainTestSplit : ℚ
deriving DecidableEq

/-- One parsed element of the reasoning-engine response:
`{id: string, riskScore: number}`. -/
structure Prediction where
  id : String
  riskScore : ℚ
deriving DecidableEq

/-- The observable outcomes of the external `generateContent` call in
`classifyPatientRisk`:
  * `callFailure`  — the call throws (transport failure), control reaches the
    `catch` block;
  * `emptyText`    — the call succeeds but `response.text` is falsy, so
    `predictions` is set to `[]` (line 157) and the success path continues;
  * `unparsable`   — `response.text` is truthy but `JSON.parse` throws, so
    control reaches the `catch` block;
  * `parsed preds` — `JSON.parse` yields the array `preds`. -/
inductive EngineOutcome
  | callFailure
  | emptyText
  | unparsable
  | parsed (preds : List Prediction)

/-- Risk categorization, from geminiService.ts lines 175-177:
`let cat = 'Low'; if (score > 0.7) cat = 'High'; else if (score > 0.4) cat = 'Medium';` -/
def riskCat (score : ℚ) : RiskCategory :=
  if (7 : ℚ)/10 < score then RiskCategory.High
  else if (2 : ℚ)/5 < score then RiskCategory.Medium
  else RiskCategory.Low

/-- Partial-fallback score for patients absent from the engine batch response,
from geminiService.ts lines 171-172:
`baseRisk = p.monthsOnCurrentTherapy > config.lookbackMonths ? 0.4 : 0.05;`
`score = Math.min(0.99, Math.max(0.01, baseRisk + (Math.random() * 0.3 - 0.15)))`.
`rand` is the `Math.random()` draw. -/
def partialFallbackScore (cfg : CohortConfig) (rand : ℚ) (p : PatientProfile) : ℚ :=
  let baseRisk : ℚ := if cfg.lookbackMonths < p.monthsOnCurrentTherapy then 2/5 else 1/20
  min ((99 : ℚ)/100) (max ((1 : ℚ)/100) (baseRisk + (rand * (3/10) - 3/20)))

/-- The score picked on the success path for one shuffled eligible patient
(geminiService.ts lines 164-173): the engine's score when the patient's id is
in the parsed batch, the partial-fallback score otherwise. -/
def successScore (cfg : CohortConfig) (preds : List Prediction) (noise : ℚ)
    (p : PatientProfile) : ℚ :=
  match preds.find? (fun item => decide (item.id = p.id)) with
  | some pred => pred.riskScore
  | none => partialFallbackScore cfg noise p

/-- The record built for the `index`-th shuffled eligible patient on the
success path of `classifyPatientRisk` (geminiService.ts lines 160-191). -/
def successRecord (cfg : CohortConfig) (noiseRand outcomeRand : Nat → ℚ)
    (preds : List Prediction) (splitIndex : Int) (index : Nat)
    (p : PatientProfile) : PatientProfile :=
  let split : Split := if (index : Int) < splitIndex then Split.TRAIN else Split.TEST
  let score : ℚ := successScore cfg preds (noiseRand index) p
  let cat : RiskCategory := riskCat score
  let actual : Bool := decide (outcomeRand index < score)
  { p with riskScore := some score, riskCategory := some cat,
           split := some split, actualOutcome := some actual }

/-- `shuffled.map((p, index) => ...)` on the success path, carrying the
running index explicitly. -/
def successMap (cfg : CohortConfig) (noiseRand outcomeRand : Nat → ℚ)
    (preds : List Prediction) (splitIndex : Int) :
    Nat → List PatientProfile → List PatientProfile
  | _, [] => []
  | i, p :: rest =>
      successRecord cfg noiseRand outcomeRand preds splitIndex i p ::
        successMap cfg noiseRand outcomeRand preds splitIndex (i + 1) rest

/-- The per-patient record on the total-fallback (catch) path,
geminiService.ts line 196:
`patients.map(p => ({ ...p, riskScore: 0.1, riskCategory: 'Low', split: 'TRAIN' }))`.
Note the spread keeps `p.actualOutcome` unchanged. -/
def totalFallbackRecord (p : PatientProfile) : PatientProfile :=
  { p with riskScore := some ((1 : ℚ)/10), riskCategory := some RiskCategory.Low,
           split := some Split.TRAIN }

/-- JS `Math.floor` on a rational, as executable floor division
(`Int.fdiv` rounds toward negative infinity, exactly as `Math.floor`).
`jsFloor_eq_floor` below identifies it with the mathematical floor. -/
def jsFloor (q : ℚ) : Int :=
  q.num.fdiv (q.den : Int)

/-- The eligibility filter from geminiService.ts line 73:
`patients.filter(p => p.monthsOnCurrentTherapy >= 1)`. -/
def eligibleFilter (patients : List PatientProfile) : List PatientProfile :=
  patients.filter (fun p => decide (1 ≤ p.monthsOnCurrentTherapy))

/-- Shallow embedding of `classifyPatientRisk` (geminiService.ts lines 65-198).
`shuffle` models `[...eligiblePatients].sort(() => 0.5 - Math.random())`;
`noiseRand i` and `outcomeRand i` model the two `Math.random()` draws made for
the `i`-th shuffled patient; `engine` models the outcome of the external call.
The `batchSize`/`processedBatch` slice (lines 82-83) only shapes the prompt
sent to the engine, never the returned records, so it does not appear here. -/
def classifyPatientRisk (patients : List PatientProfile) (cfg : CohortConfig)
    (shuffle : List PatientProfile → List PatientProfile)
    (noiseRand outcomeRand : Nat → ℚ) (engine : EngineOutcome) :
    List PatientProfile :=
  let eligiblePatients := eligibleFilter patients
  let shuffled := shuffle eligiblePatients
  let splitIndex : Int := jsFloor ((shuffled.length : ℚ) * (1 - cfg.trainTestSplit))
  match engine with
  | EngineOutcome.callFailure => patients.map totalFallbackRecord
  | EngineOutcome.unparsable => patients.map totalFallbackRecord
  | EngineOutcome.emptyText =>
      successMap cfg noiseRand outcomeRand [] splitIndex 0 shuffled
  | EngineOutcome.parsed preds =>
      successMap cfg noiseRand outcomeRand preds splitIndex 0 shuffled

/-! ### Validation metrics (src/components/AnalysisDashboard.tsx) -/

/-- The confusion-matrix accumulator of the `testSet.forEach` loop. -/
structure ConfusionCounts where
  tp : Nat
  fp : Nat
  tn : Nat
  fn : Nat
deriving DecidableEq

/-- The decision rule of AnalysisDashboard.tsx line 68:
`(p.riskScore || 0) > threshold` with `threshold = 0.5`. -/
def predictedPositive (p : PatientProfile) : Bool :=
  decide ((1 : ℚ)/2 < p.riskScore.getD 0)

/-- The label read at AnalysisDashboard.tsx line 69: `p.actualOutcome || false`. -/
def actualLabel (p : PatientProfile) : Bool :=
  p.actualOutcome.getD false

/-- One iteration of the confusion-count loop (AnalysisDashboard.tsx
lines 67-75), with the four `if` statements applied in source order. -/
def updateCounts (c : ConfusionCounts) (p : PatientProfile) : ConfusionCounts :=
  let predicted := predictedPositive p
  let actual := actualLabel p
  let c := if predicted && actual then { c with tp := c.tp + 1 } else c
  let c := if predicted && !actual then { c with fp := c.fp + 1 } else c
  let c := if !predicted && actual then { c with fn := c.fn + 1 } else c
  let c := if !predicted && !actual then { c with tn := c.tn + 1 } else c
  c

/-- The TEST subset, AnalysisDashboard.tsx line 40:
`patients.filter(p => p.split === 'TEST')`. -/
def testSetOf (patients : List PatientProfile) : List PatientProfile :=
  patients.filter (fun p => decide (p.split = some Split.TEST))

/-- The result record of `validationMetrics`. -/
structure ValidationMetrics where
  accuracy : ℚ
  precision : ℚ
  /-- the `recall` field of the source record (`recall` is reserved here) -/
  recallRate : ℚ
  tp : Nat
  fp : Nat
  tn : Nat
  fn : Nat
deriving DecidableEq

/-- Shallow embedding of the `validationMetrics` computation
(AnalysisDashboard.tsx lines 61-82). -/
def computeMetrics (patients : List PatientProfile) : ValidationMetrics :=
  let testSet := testSetOf patients
  if testSet.length = 0 then ⟨0, 0, 0, 0, 0, 0, 0⟩
  else
    let c := testSet.foldl updateCounts ⟨0, 0, 0, 0⟩
    let accuracy : ℚ := ((c.tp + c.tn : Nat) : ℚ) / (testSet.length : ℚ)
    let precision : ℚ := if 0 < c.tp + c.fp then (c.tp : ℚ) / ((c.tp + c.fp : Nat) : ℚ) else 0
    let recallV : ℚ := if 0 < c.tp + c.fn then (c.tp : ℚ) / ((c.tp + c.fn : Nat) : ℚ) else 0
    ⟨accuracy, precision, recallV, c.tp, c.fp, c.tn, c.fn⟩

/-! ### Schema inference (src/components/FileUpload.tsx) -/

/-- Configurable keyword table, from `interface ColumnKeywords` in src/types.ts. -/
structure ColumnKeywords where
  id : List String
  diagnosis : List String
  prescription : List String
  procedure : List String
  date : List String

/-- JS `trim()` at character level: strip whitespace from both ends. -/
def trimChars (l : List Char) : List Char :=
  ((l.dropWhile Char.isWhitespace).reverse.dropWhile Char.isWhitespace).reverse

/-- Header normalization from FileUpload.tsx line 26:
`h.toLowerCase().trim().replace(/[^a-z0-9]/g, '')`, done at character level
(`Char.toLower` agrees with JS `toLowerCase` on ASCII headers). -/
def normalizeHeader (h : String) : String :=
  String.mk ((trimChars (h.toList.map Char.toLower)).filter
    (fun c => ('a' ≤ c && c ≤ 'z') || ('0' ≤ c && c ≤ '9')))

/-- Substring test on character lists: JS `h.includes(k)`. -/
def charListIncludes (h k : List Char) : Bool :=
  match h with
  | [] => k.isEmpty
  | _ :: t => k.isPrefixOf h || charListIncludes t k

/-- Shallow embedding of `findColumnIndex` (FileUpload.tsx lines 25-47):
three matching tiers — exact, starts-with, contains — each exhausted over all
keywords (outer loop) against all normalized headers (inner `findIndex`)
before the next tier; `-1` when nothing matches. -/
def findColumnIndex (headers : List String) (keywords : List String) : Int :=
  let lowerHeaders := headers.map normalizeHeader
  match keywords.findSome? (fun k => lowerHeaders.findIdx? (fun h => h == k)) with
  | some i => (i : Int)
  | none =>
  match keywords.findSome?
      (fun k => lowerHeaders.findIdx? (fun h => k.toList.isPrefixOf h.toList)) with
  | some i => (i : Int)
  | none =>
  match keywords.findSome?
      (fun k => lowerHeaders.findIdx? (fun h => charListIncludes h.toList k.toList)) with
  | some i => (i : Int)
  | none => -1

/-- Drug-column resolution (FileUpload.tsx lines 81-84): try the prescription
keyword set first; if unresolved, retry with the procedure keyword set. -/
def resolveDrugColumn (headers : List String) (kw : ColumnKeywords) : Int :=
  let rxIndex := findColumnIndex headers kw.prescription
  if rxIndex = -1 then findColumnIndex headers kw.procedure else rxIndex

/-- The default keyword tables from the application's initial `GlobalConfig`
(`columnKeywords` in the root App component appended to src/types.ts). -/
def defaultColumnKeywords : ColumnKeywords where
  id := ["patient", "member", "subject", "bene", "subscriber", "mrn", "id", "pid", "pat"]
  diagnosis := ["diagnosis", "dx", "icd", "diag", "condition", "problem"]
  prescription := ["drug", "rx", "ndc", "medication", "product", "pharmacy"]
  procedure := ["cpt", "hcpcs", "procedure", "proc", "px", "service", "code"]
  date := ["date", "dos", "time", "day", "dt", "service", "admit"]

/-! ### Concrete sample data used by witnesses and counterexamples -/

/-- A fresh canonical subject as produced by ingestion: post-inference fields
unset. -/
def mkSubject (id : String) (months : Int) : PatientProfile where
  id := id
  age := 60
  gender := "F"
  diagnosisCode := "C50.911"
  currentTherapyLine := 1
  monthsOnCurrentTherapy := months
  lastVisitDate := "2024-01-01"
  npiSpecialty := "Oncology"
  drugId := "Tamoxifen"
  doctorName := "Dr. Sarah Chen"
  npiId := "1457890123"
  riskScore := none
  riskCategory := none
  split := none
  actualOutcome := none

/-- A concrete cohort configuration (lookback 12 months, 20% test split). -/
def cfg0 : CohortConfig where
  lookbackMonths := 12
  predictionWindowMonths := 6
  minClaimsCount := 2
  modelType := ModelType.GENAI_REASONING
  imbalanceStrategy := ImbalanceStrategy.NONE
  trainTestSplit := 1/5

/-- A degenerate random stream (every draw is 0). -/
def zeroRand : Nat → ℚ := fun _ => 0

/-- A TEST-partition subject with given score and actual outcome. -/
def exampleTestPatient (id : String) (s : ℚ) (a : Bool) : PatientProfile :=
  { mkSubject id 5 with riskScore := some s, split := some Split.TEST,
                        actualOutcome := some a }

/-- The TEST set {(0.8,true),(0.3,false),(0.9,false),(0.2,true)} from the
spec's validation-metrics example. -/
def exampleTestSet : List PatientProfile :=
  [exampleTestPatient "a" (4/5) true, exampleTestPatient "b" (3/10) false,
   exampleTestPatient "c" (9/10) false, exampleTestPatient "d" (1/5) true]

/-! ### Helper lemmas -/

/-- `jsFloor` is the mathematical floor. -/
lemma jsFloor_eq_floor (q : ℚ) : jsFloor q = Int.floor q := by
  rw [Rat.floor_def, jsFloor]
  exact Int.fdiv_eq_ediv _ (by positivity)

/-- Element lookup in `successMap`: the `i`-th output is the success record of
the `i`-th input at running index `k + i`. -/
lemma successMap_getElem? (cfg : CohortConfig) (noiseRand outcomeRand : Nat → ℚ)
    (preds : List Prediction) (splitIndex : Int) (k : Nat)
    (l : List PatientProfile) (i : Nat) :
    (successMap cfg noiseRand outcomeRand preds splitIndex k l)[i]? =
      (l[i]?).map (successRecord cfg noiseRand outcomeRand preds splitIndex (k + i)) := by
  induction l generalizing k i with
  | nil => simp [successMap]
  | cons p rest ih =>
      cases i with
      | zero => simp [successMap]
      | succ j =>
          have hk : k + 1 + j = k + (j + 1) := by omega
          simp only [successMap, List.getElem?_cons_succ, ih (k + 1) j, hk]

/-- `successMap` preserves length. -/
lemma successMap_length (cfg : CohortConfig) (noiseRand outcomeRand : Nat → ℚ)
    (preds : List Prediction) (splitIndex : Int) (k : Nat)
    (l : List PatientProfile) :
    (successMap cfg noiseRand outcomeRand preds splitIndex k l).length = l.length := by
  induction l generalizing k with
  | nil => rfl
  | cons p rest ih => simp [successMap, ih]

/-- Any member of `successMap` is the success record of some member of the
input list. -/
lemma mem_successMap (cfg : CohortConfig) (noiseRand outcomeRand : Nat → ℚ)
    (preds : List Prediction) (splitIndex : Int) (k : Nat)
    (l : List PatientProfile) (rec : PatientProfile)
    (h : rec ∈ successMap cfg noiseRand outcomeRand preds splitIndex k l) :
    ∃ i p, p ∈ l ∧ rec = successRecord cfg noiseRand outcomeRand preds splitIndex i p := by
  induction l generalizing k with
  | nil => simp [successMap] at h
  | cons p rest ih =>
      simp only [successMap, List.mem_cons] at h
      rcases h with h | h
      · exact ⟨k, p, List.mem_cons_self p rest, h⟩
      · obtain ⟨i, q, hq, hrec⟩ := ih (k + 1) h
        exact ⟨i, q, List.mem_cons_of_mem p hq, hrec⟩

/-- One loop iteration adds one to exactly the confusion cell selected by the
decision rule and the actual label. -/
lemma updateCounts_eq (c : ConfusionCounts) (p : PatientProfile) :
    updateCounts c p =
      ⟨c.tp + (if predictedPositive p && actualLabel p then 1 else 0),
       c.fp + (if predictedPositive p && !actualLabel p then 1 else 0),
       c.tn + (if !predictedPositive p && !actualLabel p then 1 else 0),
       c.fn + (if !predictedPositive p && actualLabel p then 1 else 0)⟩ := by
  unfold updateCounts
  cases hP : predictedPositive p <;> cases hA : actualLabel p <;> simp [hP, hA]

/-- The confusion-count loop computes the four `countP`s. -/
lemma foldl_updateCounts (l : List PatientProfile) (c : ConfusionCounts) :
    l.foldl updateCounts c =
      ⟨c.tp + l.countP (fun p => predictedPositive p && actualLabel p),
       c.fp + l.countP (fun p => predictedPositive p && !actualLabel p),
       c.tn + l.countP (fun p => !predictedPositive p && !actualLabel p),
       c.fn + l.countP (fun p => !predictedPositive p && actualLabel p)⟩ := by
  induction l generalizing c with
  | nil => simp
  | cons p rest ih =>
      rw [List.foldl_cons, ih, updateCounts_eq]
      simp only [ConfusionCounts.mk.injEq, List.countP_cons]
      refine ⟨?_, ?_, ?_, ?_⟩ <;> omega

/-- Empty engine text leaves `predictions = []` and continues on the success
path: it is the same computation as a parsed empty array. -/
lemma classify_emptyText_eq (ps : List PatientProfile) (cfg : CohortConfig)
    (sh : List PatientProfile → List PatientProfile) (nr outr : Nat → ℚ) :
    classifyPatientRisk ps cfg sh nr outr EngineOutcome.emptyText
      = classifyPatientRisk ps cfg sh nr outr (EngineOutcome.parsed []) := rfl

/-- Destructing an element of a parsed-path run: it is the success record of
the patient at the same position of the shuffled eligible list. -/
lemma classify_parsed_getElem (ps : List PatientProfile) (cfg : CohortConfig)
    (sh : List PatientProfile → List PatientProfile) (nr outr : Nat → ℚ)
    (preds : List Prediction) (i : Nat) (rec : PatientProfile)
    (h : (classifyPatientRisk ps cfg sh nr outr (EngineOutcome.parsed preds))[i]?
          = some rec) :
    ∃ p, (sh (eligibleFilter ps))[i]? = some p ∧
      rec = successRecord cfg nr outr preds
        (jsFloor (((sh (eligibleFilter ps)).length : ℚ) * (1 - cfg.trainTestSplit))) i p := by
  simp only [classifyPatientRisk] at h
  rw [successMap_getElem?] at h
  obtain ⟨p, hp, hrec⟩ := Option.map_eq_some'.mp h
  refine ⟨p, hp, ?_⟩
  rw [← hrec]
  norm_num

/-- Projections of a success record. -/
lemma successRecord_proj (cfg : CohortConfig) (nr outr : Nat → ℚ)
    (preds : List Prediction) (si : Int) (i : Nat) (p : PatientProfile) :
    (successRecord cfg nr outr preds si i p).riskScore
        = some (successScore cfg preds (nr i) p) ∧
    (successRecord cfg nr outr preds si i p).riskCategory
        = some (riskCat (successScore cfg preds (nr i) p)) ∧
    (successRecord cfg nr outr preds si i p).split
        = some (if (i : Int) < si then Split.TRAIN else Split.TEST) ∧
    (successRecord cfg nr outr preds si i p).actualOutcome
        = some (decide (outr i < successScore cfg preds (nr i) p)) ∧
    (successRecord cfg nr outr preds si i p).id = p.id ∧
    (successRecord cfg nr outr preds si i p).monthsOnCurrentTherapy
        = p.monthsOnCurrentTherapy := by
  exact ⟨rfl, rfl, rfl, rfl, rfl, rfl⟩

/-- The partial-fallback clamp keeps every score inside [0.01, 0.99]. -/
lemma partialFallbackScore_bounds (cfg : CohortConfig) (rand : ℚ)
    (p : PatientProfile) :
    (1 : ℚ)/100 ≤ partialFallbackScore cfg rand p ∧
      partialFallbackScore cfg rand p ≤ 99/100 := by
  unfold partialFallbackScore
  constructor
  · exact le_min (by norm_num) (le_max_left _ _)
  · exact min_le_left _ _

/-- True positives over the TEST subset. -/
def tpOf (ps : List PatientProfile) : Nat :=
  (testSetOf ps).countP (fun p => predictedPositive p && actualLabel p)

/-- False positives over the TEST subset. -/
def fpOf (ps : List PatientProfile) : Nat :=
  (testSetOf ps).countP (fun p => predictedPositive p && !actualLabel p)

/-- True negatives over the TEST subset. -/
def tnOf (ps : List PatientProfile) : Nat :=
  (testSetOf ps).countP (fun p => !predictedPositive p && !actualLabel p)

/-- False negatives over the TEST subset. -/
def fnOf (ps : List PatientProfile) : Nat :=
  (testSetOf ps).countP (fun p => !predictedPositive p && actualLabel p)

/-- Closed form of `computeMetrics` on a non-empty TEST subset. -/
lemma computeMetrics_pos (ps : List PatientProfile)
    (h : ¬ (testSetOf ps).length = 0) :
    computeMetrics ps =
      ⟨((tpOf ps + tnOf ps : Nat) : ℚ) / ((testSetOf ps).length : ℚ),
       if 0 < tpOf ps + fpOf ps
         then (tpOf ps : ℚ) / ((tpOf ps + fpOf ps : Nat) : ℚ) else 0,
       if 0 < tpOf ps + fnOf ps
         then (tpOf ps : ℚ) / ((tpOf ps + fnOf ps : Nat) : ℚ) else 0,
       tpOf ps, fpOf ps, tnOf ps, fnOf ps⟩ := by
  simp only [computeMetrics, h, if_false, foldl_updateCounts, tpOf, fpOf, tnOf, fnOf]
  norm_num

/-- Evaluation of `computeMetrics` on the spec's concrete TEST example. -/
lemma exampleMetrics_eval :
    computeMetrics exampleTestSet = ⟨1/2, 1/2, 1/2, 1, 1, 1, 1⟩ := by
  have h : testSetOf exampleTestSet = exampleTestSet := by
    simp [testSetOf, exampleTestSet, exampleTestPatient, mkSubject]
  simp only [computeMetrics, h]
  rw [foldl_updateCounts]
  norm_num [exampleTestSet, exampleTestPatient, mkSubject, List.countP_cons,
    List.countP_nil, predictedPositive, actualLabel]

/-- Forget the four post-inference fields, keeping the ingestion-time base
fields. -/
def stripScores (p : PatientProfile) : PatientProfile :=
  { p with riskScore := none, riskCategory := none, split := none,
           actualOutcome := none }

/-- A success record and its input agree on all base fields. -/
lemma stripScores_successRecord (cfg : CohortConfig) (nr outr : Nat → ℚ)
    (preds : List Prediction) (si : Int) (i : Nat) (p : PatientProfile) :
    stripScores (successRecord cfg nr outr preds si i p) = stripScores p := rfl

/-- A fresh record (no post-inference fields) is fixed by `stripScores`. -/
lemma stripScores_eq_self (p : PatientProfile) (h1 : p.riskScore = none)
    (h2 : p.riskCategory = none) (h3 : p.split = none)
    (h4 : p.actualOutcome = none) : stripScores p = p := by
  cases p
  simp only [stripScores] at *
  simp_all

/-- `successMap` and the input agree after forgetting post-inference fields. -/
lemma successMap_map_stripScores (cfg : CohortConfig) (nr outr : Nat → ℚ)
    (preds : List Prediction) (si : Int) (k : Nat) (l : List PatientProfile) :
    (successMap cfg nr outr preds si k l).map stripScores = l.map stripScores := by
  induction l generalizing k with
  | nil => rfl
  | cons p rest ih => simp [successMap, stripScores_successRecord, ih]

/-- A list of fresh records is fixed pointwise by `stripScores`. -/
lemma map_stripScores_of_fresh (l : List PatientProfile)
    (h : ∀ p ∈ l, p.riskScore = none ∧ p.riskCategory = none ∧
          p.split = none ∧ p.actualOutcome = none) :
    l.map stripScores = l := by
  induction l with
  | nil => rfl
  | cons p rest ih =>
      obtain ⟨h1, h2, h3, h4⟩ := h p (List.mem_cons_self p rest)
      simp only [List.map_cons, stripScores_eq_self p h1 h2 h3 h4,
        ih (fun q hq => h q (List.mem_cons_of_mem p hq))]

/-- Positional lookup implies membership. -/
lemma mem_of_getElem?_eq {α : Type} (l : List α) (n : Nat) (a : α)
    (h : l[n]? = some a) : a ∈ l := by
  obtain ⟨hn, rfl⟩ := List.getElem?_eq_some_iff.mp h
  exact List.getElem_mem hn

/-- Every success-path record's split is TRAIN or TEST. -/
lemma classify_parsed_split_or (ps : List PatientProfile) (cfg : CohortConfig)
    (sh : List PatientProfile → List PatientProfile) (nr outr : Nat → ℚ)
    (preds : List Prediction) :
    ∀ rec ∈ classifyPatientRisk ps cfg sh nr outr (EngineOutcome.parsed preds),
      rec.split = some Split.TRAIN ∨ rec.split = some Split.TEST := by
  intro rec hrec
  simp only [classifyPatientRisk] at hrec
  obtain ⟨i, p, hp, hrec⟩ := mem_successMap _ _ _ _ _ _ _ _ hrec
  subst hrec
  obtain ⟨-, -, hsplit, -⟩ := successRecord_proj cfg nr outr preds _ i p
  rw [hsplit]
  by_cases hlt : (i : Int) < jsFloor (((sh (eligibleFilter ps)).length : ℚ)
      * (1 - cfg.trainTestSplit))
  · exact Or.inl (by rw [if_pos hlt])
  · exact Or.inr (by rw [if_neg hlt])

/-- A list whose records all carry a TRAIN-or-TEST split is partitioned by the
two split counts. -/
lemma countP_split_partition (l : List PatientProfile)
    (h : ∀ rec ∈ l, rec.split = some Split.TRAIN ∨ rec.split = some Split.TEST) :
    l.countP (fun r => decide (r.split = some Split.TRAIN))
      + l.countP (fun r => decide (r.split = some Split.TEST)) = l.length := by
  induction l with
  | nil => rfl
  | cons p rest ih =>
      have hp := h p (List.mem_cons_self p rest)
      have hr := ih (fun q hq => h q (List.mem_cons_of_mem p hq))
      rcases hp with hp | hp <;> simp [List.countP_cons, hp] <;> omega

/-! ### Claim theorems -/

/-- C7: Column resolution normalizes each header (lowercase, non-alphanumeric
stripped) and tries each canonical field's keyword list in three tiers (exact,
starts-with, contains), each tier exhausted across all keywords before the
next; the drug column tries the prescription keyword set first and falls back
to the procedure set; with the default keyword tables, the headers
["Patient_ID","ICD10","NDC","DOS"] resolve to id→0, diagnosis→1,
prescription→2, date→3. -/
theorem schema_inference_spec :
    (∀ (hs : List String) (kw : ColumnKeywords),
        resolveDrugColumn hs kw =
          if findColumnIndex hs kw.prescription = -1
          then findColumnIndex hs kw.procedure
          else findColumnIndex hs kw.prescription) ∧
    normalizeHeader "Patient_ID" = "patientid" ∧
    findColumnIndex ["Patient_ID", "ICD10", "NDC", "DOS"] defaultColumnKeywords.id = 0 ∧
    findColumnIndex ["Patient_ID", "ICD10", "NDC", "DOS"] defaultColumnKeywords.diagnosis = 1 ∧
    resolveDrugColumn ["Patient_ID", "ICD10", "NDC", "DOS"] defaultColumnKeywords = 2 ∧
    findColumnIndex ["Patient_ID", "ICD10", "NDC", "DOS"] defaultColumnKeywords.date = 3 := by
  refine ⟨fun hs kw => rfl, ?_, ?_, ?_, ?_, ?_⟩ <;> decide

/-- C3: for every score, the risk category is High iff score > 0.7, Medium iff
0.4 < score ≤ 0.7, Low iff score ≤ 0.4; the boundaries give category(0.7) =
Medium and category(0.4) = Low; and every record output by
`classifyPatientRisk`, on every path, carries `riskCategory` equal to this
pure function of its `riskScore`. -/
theorem risk_category_spec :
    (∀ s : ℚ, (riskCat s = RiskCategory.High ↔ 7/10 < s) ∧
       (riskCat s = RiskCategory.Medium ↔ 2/5 < s ∧ s ≤ 7/10) ∧
       (riskCat s = RiskCategory.Low ↔ s ≤ 2/5)) ∧
    riskCat (7/10) = RiskCategory.Medium ∧
    riskCat (2/5) = RiskCategory.Low ∧
    (∀ (ps : List PatientProfile) (cfg : CohortConfig)
       (sh : List PatientProfile → List PatientProfile) (nr outr : Nat → ℚ)
       (eng : EngineOutcome) (rec : PatientProfile),
        rec ∈ classifyPatientRisk ps cfg sh nr outr eng →
        rec.riskCategory = rec.riskScore.map riskCat) := by
  refine ⟨?_, by norm_num [riskCat], by norm_num [riskCat], ?_⟩
  · intro s
    unfold riskCat
    split_ifs with h1 h2 <;>
      refine ⟨?_, ?_, ?_⟩ <;> simp <;> first
        | linarith
        | (intro h; linarith)
        | (constructor <;> linarith)
  · intro ps cfg sh nr outr eng rec hrec
    cases eng with
    | callFailure =>
        simp only [classifyPatientRisk, List.mem_map] at hrec
        obtain ⟨p, _, rfl⟩ := hrec
        simp [totalFallbackRecord, riskCat]
        norm_num
    | unparsable =>
        simp only [classifyPatientRisk, List.mem_map] at hrec
        obtain ⟨p, _, rfl⟩ := hrec
        simp [totalFallbackRecord, riskCat]
        norm_num
    | emptyText =>
        simp only [classifyPatientRisk] at hrec
        obtain ⟨i, p, _, rfl⟩ := mem_successMap _ _ _ _ _ _ _ _ hrec
        simp [successRecord]
    | parsed preds =>
        simp only [classifyPatientRisk] at hrec
        obtain ⟨i, p, _, rfl⟩ := mem_successMap _ _ _ _ _ _ _ _ hrec
        simp [successRecord]

/-- Witness for C3 at a concrete total-fallback run: the returned record's
category is the pure categorization of its score. -/
theorem risk_category_spec_witness :
    riskCat (7/10) = RiskCategory.Medium ∧
    (totalFallbackRecord (mkSubject "p" 5)).riskCategory
      = (totalFallbackRecord (mkSubject "p" 5)).riskScore.map riskCat := by
  refine ⟨risk_category_spec.2.1,
    risk_category_spec.2.2.2 [mkSubject "p" 5] cfg0 (fun l => l) zeroRand zeroRand
      EngineOutcome.callFailure _ ?_⟩
  simp [classifyPatientRisk]

/-- C6: `computeMetrics` works over exactly the TEST subjects with decision
rule riskScore > 0.5; its confusion counts are the four countPs over the TEST
subset; accuracy = (tp+tn)/|TEST|, precision = tp/(tp+fp) or 0 when tp+fp=0,
recall = tp/(tp+fn) or 0 when tp+fn=0; an empty TEST set gives all-zero
metrics with no division fault; and on the TEST set
{(0.8,true),(0.3,false),(0.9,false),(0.2,true)} it yields tp=fp=fn=tn=1 and
accuracy=precision=recall=1/2. -/
theorem compute_metrics_spec (ps : List PatientProfile) :
    testSetOf ps = ps.filter (fun p => decide (p.split = some Split.TEST)) ∧
    (∀ p, predictedPositive p = decide ((1 : ℚ)/2 < p.riskScore.getD 0)) ∧
    (computeMetrics ps).tp = tpOf ps ∧
    (computeMetrics ps).fp = fpOf ps ∧
    (computeMetrics ps).tn = tnOf ps ∧
    (computeMetrics ps).fn = fnOf ps ∧
    ((testSetOf ps).length = 0 → computeMetrics ps = ⟨0, 0, 0, 0, 0, 0, 0⟩) ∧
    (0 < (testSetOf ps).length →
       (computeMetrics ps).accuracy
         = ((tpOf ps + tnOf ps : Nat) : ℚ) / ((testSetOf ps).length : ℚ) ∧
       (computeMetrics ps).precision
         = (if 0 < tpOf ps + fpOf ps
            then (tpOf ps : ℚ) / ((tpOf ps + fpOf ps : Nat) : ℚ) else 0) ∧
       (computeMetrics ps).recallRate
         = (if 0 < tpOf ps + fnOf ps
            then (tpOf ps : ℚ) / ((tpOf ps + fnOf ps : Nat) : ℚ) else 0)) ∧
    computeMetrics exampleTestSet = ⟨1/2, 1/2, 1/2, 1, 1, 1, 1⟩ := by
  by_cases h : (testSetOf ps).length = 0
  · have hts : testSetOf ps = [] := List.length_eq_zero.mp h
    refine ⟨rfl, fun p => rfl, ?_, ?_, ?_, ?_, fun _ => ?_, fun hpos => ?_,
      exampleMetrics_eval⟩ <;>
      simp [computeMetrics, h, hts, tpOf, fpOf, tnOf, fnOf]
  · rw [computeMetrics_pos ps h]
    exact ⟨rfl, fun p => rfl, rfl, rfl, rfl, rfl, fun habs => absurd habs h,
      fun _ => ⟨rfl, rfl, rfl⟩, exampleMetrics_eval⟩

/-- Witness for C6: the spec's concrete TEST-set example, instantiating the
count characterizations and the non-empty-branch formulas there. -/
theorem compute_metrics_spec_witness :
    (computeMetrics exampleTestSet).tp = tpOf exampleTestSet ∧
    (0 < (testSetOf exampleTestSet).length) ∧
    (computeMetrics exampleTestSet).accuracy
      = ((tpOf exampleTestSet + tnOf exampleTestSet : Nat) : ℚ)
          / ((testSetOf exampleTestSet).length : ℚ) := by
  have hlen : 0 < (testSetOf exampleTestSet).length := by
    simp [testSetOf, exampleTestSet, exampleTestPatient, mkSubject]
  exact ⟨(compute_metrics_spec exampleTestSet).2.2.1, hlen,
    ((compute_metrics_spec exampleTestSet).2.2.2.2.2.2.2.1 hlen).1⟩

/-- C5: on the engine-success path, a subject present in the parsed batch gets
the returned score; a subject absent from it gets
clamp(base + noise, 0.01, 0.99) with base = 0.4 when
monthsOnCurrentTherapy > lookbackMonths and 0.05 otherwise, and noise =
rand·0.3 − 0.15, a symmetric perturbation within ±0.15 for rand ∈ [0,1); the
clamped score lies in [0.01, 0.99] for every value of the noise draw. -/
theorem partial_fallback_spec (ps : List PatientProfile) (cfg : CohortConfig)
    (sh : List PatientProfile → List PatientProfile) (nr outr : Nat → ℚ)
    (preds : List Prediction) (i : Nat) (rec : PatientProfile)
    (h : (classifyPatientRisk ps cfg sh nr outr (EngineOutcome.parsed preds))[i]?
          = some rec) :
    (∀ pr, preds.find? (fun item => decide (item.id = rec.id)) = some pr →
        rec.riskScore = some pr.riskScore) ∧
    (preds.find? (fun item => decide (item.id = rec.id)) = none →
        rec.riskScore = some (min ((99 : ℚ)/100) (max ((1 : ℚ)/100)
          ((if cfg.lookbackMonths < rec.monthsOnCurrentTherapy
              then (2 : ℚ)/5 else 1/20)
            + (nr i * (3/10) - 3/20)))) ∧
        (∀ s, rec.riskScore = some s → (1 : ℚ)/100 ≤ s ∧ s ≤ 99/100)) ∧
    (0 ≤ nr i → nr i < 1 →
        -(3/20 : ℚ) ≤ nr i * (3/10) - 3/20 ∧ nr i * (3/10) - 3/20 < 3/20) := by
  obtain ⟨p, hp, hrec⟩ := classify_parsed_getElem ps cfg sh nr outr preds i rec h
  obtain ⟨hscore, -, -, -, hid, hmonths⟩ := successRecord_proj cfg nr outr preds _ i p
  refine ⟨?_, ?_, ?_⟩
  · intro pr hpr
    rw [hrec, hid] at hpr
    rw [hrec, hscore]
    unfold successScore
    rw [hpr]
  · intro hnone
    rw [hrec, hid] at hnone
    have hps : successScore cfg preds (nr i) p = partialFallbackScore cfg (nr i) p := by
      unfold successScore
      rw [hnone]
    constructor
    · rw [hrec, hscore, hps, hrec] at *
      rw [hmonths]
      simp only [partialFallbackScore]
    · intro s hs
      rw [hrec, hscore, hps] at hs
      have hb := partialFallbackScore_bounds cfg (nr i) p
      have hs' : partialFallbackScore cfg (nr i) p = s := Option.some_inj.mp hs
      rw [hs'] at hb
      exact hb
  · intro h0 h1
    constructor
    · nlinarith
    · nlinarith

/-- Witness for C5 at a concrete success run whose single eligible subject is
absent from the parsed batch: the noise perturbation is within ±0.15. -/
theorem partial_fallback_spec_witness :
    -(3/20 : ℚ) ≤ zeroRand 0 * (3/10) - 3/20 ∧ zeroRand 0 * (3/10) - 3/20 < 3/20 := by
  have he : eligibleFilter [mkSubject "p" 5] = [mkSubject "p" 5] := by
    simp [eligibleFilter, mkSubject]
  have hsi : jsFloor ((([mkSubject "p" 5] : List PatientProfile).length : ℚ)
      * (1 - cfg0.trainTestSplit)) = 0 := by
    rw [jsFloor_eq_floor]
    norm_num [cfg0]
  have h : (classifyPatientRisk [mkSubject "p" 5] cfg0 (fun l => l) zeroRand zeroRand
      (EngineOutcome.parsed [⟨"x", 1/2⟩]))[0]?
      = some (successRecord cfg0 zeroRand zeroRand [⟨"x", 1/2⟩] 0 0 (mkSubject "p" 5)) := by
    simp only [classifyPatientRisk, he, hsi]
    rw [successMap_getElem?]
    simp
  exact (partial_fallback_spec [mkSubject "p" 5] cfg0 (fun l => l) zeroRand zeroRand
      [⟨"x", 1/2⟩] 0 _ h).2.2 (by norm_num [zeroRand]) (by norm_num [zeroRand])

/-- C9: `classifyPatientRisk` builds new records: on the success path each
returned record agrees with the input subject at the same shuffled position on
every field other than riskScore, riskCategory, split and actualOutcome, and
on the total-fallback path each returned record likewise agrees with the
corresponding input subject on all base fields (the embedding is a pure
function of its inputs, so the caller's collection is never modified). -/
theorem classify_frame_spec (ps : List PatientProfile) (cfg : CohortConfig)
    (sh : List PatientProfile → List PatientProfile) (nr outr : Nat → ℚ)
    (preds : List Prediction) :
    (∀ (i : Nat) (rec : PatientProfile),
      (classifyPatientRisk ps cfg sh nr outr (EngineOutcome.parsed preds))[i]?
          = some rec →
      ∃ p, (sh (eligibleFilter ps))[i]? = some p ∧
        rec.id = p.id ∧ rec.age = p.age ∧ rec.gender = p.gender ∧
        rec.diagnosisCode = p.diagnosisCode ∧
        rec.currentTherapyLine = p.currentTherapyLine ∧
        rec.monthsOnCurrentTherapy = p.monthsOnCurrentTherapy ∧
        rec.lastVisitDate = p.lastVisitDate ∧
        rec.npiSpecialty = p.npiSpecialty ∧ rec.drugId = p.drugId ∧
        rec.doctorName = p.doctorName ∧ rec.npiId = p.npiId) ∧
    (∀ (j : Nat) (rec : PatientProfile),
      (classifyPatientRisk ps cfg sh nr outr EngineOutcome.callFailure)[j]?
          = some rec →
      ∃ p, ps[j]? = some p ∧ rec = totalFallbackRecord p ∧
        rec.id = p.id ∧ rec.age = p.age ∧ rec.gender = p.gender ∧
        rec.diagnosisCode = p.diagnosisCode ∧
        rec.currentTherapyLine = p.currentTherapyLine ∧
        rec.monthsOnCurrentTherapy = p.monthsOnCurrentTherapy ∧
        rec.lastVisitDate = p.lastVisitDate ∧
        rec.npiSpecialty = p.npiSpecialty ∧ rec.drugId = p.drugId ∧
        rec.doctorName = p.doctorName ∧ rec.npiId = p.npiId) := by
  constructor
  · intro i rec h
    obtain ⟨p, hp, hrec⟩ := classify_parsed_getElem ps cfg sh nr outr preds i rec h
    subst hrec
    exact ⟨p, hp, rfl, rfl, rfl, rfl, rfl, rfl, rfl, rfl, rfl, rfl, rfl⟩
  · intro j rec h
    simp only [classifyPatientRisk, List.getElem?_map] at h
    obtain ⟨p, hp, hrec⟩ := Option.map_eq_some'.mp h
    subst hrec
    exact ⟨p, hp, rfl, rfl, rfl, rfl, rfl, rfl, rfl, rfl, rfl, rfl, rfl, rfl⟩

/-- Witness for C9 at a concrete total-fallback run: the returned record keeps
the input subject's base fields. -/
theorem classify_frame_spec_witness :
    (totalFallbackRecord (mkSubject "p" 5)).drugId = (mkSubject "p" 5).drugId ∧
    (totalFallbackRecord (mkSubject "p" 5)).age = (mkSubject "p" 5).age := by
  have h : (classifyPatientRisk [mkSubject "p" 5] cfg0 (fun l => l) zeroRand zeroRand
      EngineOutcome.callFailure)[0]? = some (totalFallbackRecord (mkSubject "p" 5)) := by
    simp [classifyPatientRisk]
  obtain ⟨p, hp, -, -, -, -, -, -, -, -, -, hdrug, -, -⟩ :=
    (classify_frame_spec [mkSubject "p" 5] cfg0 (fun l => l) zeroRand zeroRand []).2 0 _ h
  have hp' : p = mkSubject "p" 5 := by
    have := hp
    simp at this
    exact this.symm
  constructor
  · rw [hp'] at hdrug
    exact hdrug
  · rfl

/-- C10: when the shuffle permutes its input and the input subjects are fresh,
the engine-success output is exactly the shuffled eligible subjects (base
fields): it has one record per eligible subject in shuffled order, every
record comes from an eligible subject (months ≥ 1), so ineligible subjects
are absent; only the total-fallback path returns one record per input
subject. -/
theorem success_output_eligible_spec (ps : List PatientProfile)
    (cfg : CohortConfig) (sh : List PatientProfile → List PatientProfile)
    (nr outr : Nat → ℚ) (preds : List Prediction)
    (hsh : (sh (eligibleFilter ps)).Perm (eligibleFilter ps))
    (hfresh : ∀ p ∈ ps, p.riskScore = none ∧ p.riskCategory = none ∧
        p.split = none ∧ p.actualOutcome = none) :
    (classifyPatientRisk ps cfg sh nr outr (EngineOutcome.parsed preds)).length
        = (eligibleFilter ps).length ∧
    (classifyPatientRisk ps cfg sh nr outr (EngineOutcome.parsed preds)).map
        stripScores = sh (eligibleFilter ps) ∧
    ((classifyPatientRisk ps cfg sh nr outr (EngineOutcome.parsed preds)).map
        stripScores).Perm (eligibleFilter ps) ∧
    (∀ rec ∈ classifyPatientRisk ps cfg sh nr outr (EngineOutcome.parsed preds),
        1 ≤ rec.monthsOnCurrentTherapy) ∧
    (classifyPatientRisk ps cfg sh nr outr EngineOutcome.callFailure).length
        = ps.length := by
  have hsub : ∀ p ∈ sh (eligibleFilter ps),
      p ∈ ps ∧ 1 ≤ p.monthsOnCurrentTherapy := by
    intro p hp
    have hp' : p ∈ eligibleFilter ps := hsh.mem_iff.mp hp
    have := List.mem_filter.mp hp'
    simpa using this
  have hmap : (classifyPatientRisk ps cfg sh nr outr
      (EngineOutcome.parsed preds)).map stripScores = sh (eligibleFilter ps) := by
    simp only [classifyPatientRisk]
    rw [successMap_map_stripScores]
    exact map_stripScores_of_fresh _ (fun p hp => hfresh p (hsub p hp).1)
  refine ⟨?_, hmap, ?_, ?_, ?_⟩
  · simp only [classifyPatientRisk]
    rw [successMap_length]
    exact hsh.length_eq
  · rw [hmap]
    exact hsh
  · intro rec hrec
    simp only [classifyPatientRisk] at hrec
    obtain ⟨i, p, hp, hrec⟩ := mem_successMap _ _ _ _ _ _ _ _ hrec
    subst hrec
    exact (hsub p hp).2
  · simp [classifyPatientRisk]

/-- Witness for C10 at a concrete one-eligible-subject success run. -/
theorem success_output_eligible_spec_witness :
    (classifyPatientRisk [mkSubject "p" 5, mkSubject "q" 0] cfg0 (fun l => l)
        zeroRand zeroRand (EngineOutcome.parsed [])).length
      = (eligibleFilter [mkSubject "p" 5, mkSubject "q" 0]).length ∧
    (classifyPatientRisk [mkSubject "p" 5, mkSubject "q" 0] cfg0 (fun l => l)
        zeroRand zeroRand EngineOutcome.callFailure).length = 2 := by
  have hsh : ((fun (l : List PatientProfile) => l)
      (eligibleFilter [mkSubject "p" 5, mkSubject "q" 0])).Perm
      (eligibleFilter [mkSubject "p" 5, mkSubject "q" 0]) := List.Perm.refl _
  have hfresh : ∀ p ∈ [mkSubject "p" 5, mkSubject "q" 0],
      p.riskScore = none ∧ p.riskCategory = none ∧
      p.split = none ∧ p.actualOutcome = none := by
    intro p hp
    simp only [List.mem_cons, List.mem_singleton] at hp
    rcases hp with rfl | rfl | h
    · exact ⟨rfl, rfl, rfl, rfl⟩
    · exact ⟨rfl, rfl, rfl, rfl⟩
    · cases h
  have := success_output_eligible_spec [mkSubject "p" 5, mkSubject "q" 0] cfg0
    (fun l => l) zeroRand zeroRand [] hsh hfresh
  exact ⟨this.1, this.2.2.2.2⟩

/-- Counterexample to C1: a run whose engine call succeeds with empty text
does NOT take the total fallback — the single eligible subject gets the
partial-fallback score 0.01 (not 0.1), lands in TEST (not TRAIN), and has its
simulated outcome set. -/
theorem emptyText_not_total_fallback :
    (classifyPatientRisk [mkSubject "p" 5] cfg0 (fun l => l) zeroRand zeroRand
        EngineOutcome.emptyText).map (fun r => r.riskScore)
      = [some ((1 : ℚ)/100)] ∧
    (classifyPatientRisk [mkSubject "p" 5] cfg0 (fun l => l) zeroRand zeroRand
        EngineOutcome.emptyText).map (fun r => r.split) = [some Split.TEST] ∧
    (classifyPatientRisk [mkSubject "p" 5] cfg0 (fun l => l) zeroRand zeroRand
        EngineOutcome.emptyText).map (fun r => r.actualOutcome.isSome) = [true] ∧
    ((1 : ℚ)/100 ≠ 1/10) ∧ some Split.TEST ≠ some Split.TRAIN := by
  have he : eligibleFilter [mkSubject "p" 5] = [mkSubject "p" 5] := by
    simp [eligibleFilter, mkSubject]
  have hsc : successScore cfg0 [] (zeroRand 0) (mkSubject "p" 5) = 1/100 := by
    unfold successScore
    norm_num [partialFallbackScore, cfg0, mkSubject, zeroRand]
  refine ⟨?_, ?_, ?_, by norm_num, by simp⟩ <;>
    simp only [classifyPatientRisk, he, successMap, List.map_cons, List.map_nil,
      List.length_singleton, successRecord, hsc] <;>
    norm_num [jsFloor_eq_floor, cfg0, zeroRand]

/-- C1 amended: the total fallback triggers exactly when the engine call
throws or its non-empty text is unparsable; then every input subject
(eligible or not) yields one record with riskScore 0.1, category Low, split
TRAIN, and no simulated outcome (for fresh inputs).  Empty response text does
not trigger it: that run is the success-path computation with an empty parsed
batch. -/
theorem total_fallback_spec (ps : List PatientProfile) (cfg : CohortConfig)
    (sh : List PatientProfile → List PatientProfile) (nr outr : Nat → ℚ)
    (eng : EngineOutcome)
    (heng : eng = EngineOutcome.callFailure ∨ eng = EngineOutcome.unparsable)
    (hfresh : ∀ p ∈ ps, p.actualOutcome = none) :
    (classifyPatientRisk ps cfg sh nr outr eng).length = ps.length ∧
    (∀ (j : Nat) (rec : PatientProfile),
      (classifyPatientRisk ps cfg sh nr outr eng)[j]? = some rec →
      ∃ p, ps[j]? = some p ∧ rec = totalFallbackRecord p ∧
        rec.riskScore = some ((1 : ℚ)/10) ∧
        rec.riskCategory = some RiskCategory.Low ∧
        rec.split = some Split.TRAIN ∧ rec.actualOutcome = none) ∧
    classifyPatientRisk ps cfg sh nr outr EngineOutcome.emptyText
      = classifyPatientRisk ps cfg sh nr outr (EngineOutcome.parsed []) := by
  have hcase : classifyPatientRisk ps cfg sh nr outr eng
      = ps.map totalFallbackRecord := by
    rcases heng with rfl | rfl <;> rfl
  refine ⟨by rw [hcase]; simp, ?_, rfl⟩
  intro j rec h
  rw [hcase, List.getElem?_map] at h
  obtain ⟨p, hp, hrec⟩ := Option.map_eq_some'.mp h
  subst hrec
  exact ⟨p, hp, rfl, rfl, rfl, rfl, hfresh p (mem_of_getElem?_eq ps j p hp)⟩

/-- Witness for C1 (amended) at a concrete failed-call run on one subject. -/
theorem total_fallback_spec_witness :
    (classifyPatientRisk [mkSubject "p" 5] cfg0 (fun l => l) zeroRand zeroRand
        EngineOutcome.callFailure).length = 1 ∧
    (totalFallbackRecord (mkSubject "p" 5)).riskScore = some ((1 : ℚ)/10) ∧
    (totalFallbackRecord (mkSubject "p" 5)).actualOutcome = none := by
  have h := total_fallback_spec [mkSubject "p" 5] cfg0 (fun l => l) zeroRand
    zeroRand EngineOutcome.callFailure (Or.inl rfl)
    (by intro p hp; simp only [List.mem_singleton] at hp; subst hp; rfl)
  obtain ⟨p, -, -, hs, -, -, ho⟩ := h.2.1 0 (totalFallbackRecord (mkSubject "p" 5))
    (by simp [classifyPatientRisk])
  exact ⟨h.1, hs, ho⟩

/-- Counterexample to C4: on a total-fallback run the returned record has no
`actualOutcome` at all — the Bernoulli outcome draw is not applied there. -/
theorem fallback_record_outcome_unset :
    ((classifyPatientRisk [mkSubject "p" 5] cfg0 (fun l => l) zeroRand zeroRand
        EngineOutcome.callFailure).all (fun r => r.actualOutcome.isSome)) = false := by
  simp [classifyPatientRisk, totalFallbackRecord, mkSubject]

/-- C4 amended: the outcome simulation `Math.random() < score` is a Bernoulli
draw with success probability the record's riskScore, applied to every record
on the call-success path (so each such record has `actualOutcome` set); on the
total-fallback path no outcome is drawn — each record keeps its input
subject's `actualOutcome`, which is unset for fresh inputs. -/
theorem simulate_outcome_spec (ps : List PatientProfile) (cfg : CohortConfig)
    (sh : List PatientProfile → List PatientProfile) (nr outr : Nat → ℚ)
    (preds : List Prediction) :
    (∀ (i : Nat) (rec : PatientProfile),
      (classifyPatientRisk ps cfg sh nr outr (EngineOutcome.parsed preds))[i]?
          = some rec →
      ∃ s, rec.riskScore = some s
        ∧ rec.actualOutcome = some (decide (outr i < s))) ∧
    (∀ (j : Nat) (rec : PatientProfile),
      (classifyPatientRisk ps cfg sh nr outr EngineOutcome.callFailure)[j]?
          = some rec →
      ∃ p, ps[j]? = some p ∧ rec.actualOutcome = p.actualOutcome) := by
  constructor
  · intro i rec h
    obtain ⟨p, hp, hrec⟩ := classify_parsed_getElem ps cfg sh nr outr preds i rec h
    subst hrec
    exact ⟨successScore cfg preds (nr i) p, rfl, rfl⟩
  · intro j rec h
    simp only [classifyPatientRisk, List.getElem?_map] at h
    obtain ⟨p, hp, hrec⟩ := Option.map_eq_some'.mp h
    subst hrec
    exact ⟨p, hp, rfl⟩

/-- Witness for C4 (amended) at a concrete success run: the record's outcome
is set. -/
theorem simulate_outcome_spec_witness :
    (successRecord cfg0 zeroRand zeroRand [] 0 0 (mkSubject "p" 5)).actualOutcome.isSome
      = true := by
  have he : eligibleFilter [mkSubject "p" 5] = [mkSubject "p" 5] := by
    simp [eligibleFilter, mkSubject]
  have hsi : jsFloor ((([mkSubject "p" 5] : List PatientProfile).length : ℚ)
      * (1 - cfg0.trainTestSplit)) = 0 := by
    rw [jsFloor_eq_floor]
    norm_num [cfg0]
  have h : (classifyPatientRisk [mkSubject "p" 5] cfg0 (fun l => l) zeroRand zeroRand
      (EngineOutcome.parsed []))[0]?
      = some (successRecord cfg0 zeroRand zeroRand [] 0 0 (mkSubject "p" 5)) := by
    simp only [classifyPatientRisk, he, hsi]
    rw [successMap_getElem?]
    simp
  obtain ⟨s, -, ho⟩ := (simulate_outcome_spec [mkSubject "p" 5] cfg0 (fun l => l)
    zeroRand zeroRand []).1 0 _ h
  rw [ho]
  rfl

/-- Counterexample to C8: on a total-fallback run an ineligible subject
(months on therapy 0 < 1) receives split = TRAIN. -/
theorem fallback_assigns_split_to_ineligible :
    (classifyPatientRisk [mkSubject "q" 0] cfg0 (fun l => l) zeroRand zeroRand
        EngineOutcome.callFailure).map (fun r => r.split) = [some Split.TRAIN] ∧
    (mkSubject "q" 0).monthsOnCurrentTherapy < 1 := by
  constructor
  · simp [classifyPatientRisk, totalFallbackRecord]
  · norm_num [mkSubject]

/-- C8 amended: on the success path every returned record is eligible
(months ≥ 1) and carries exactly one split value, so no ineligible subject
receives split or outcome there; on the total-fallback path, however, every
input subject — ineligible ones included — receives split = TRAIN, while
`actualOutcome` stays unset for fresh inputs. -/
theorem split_assignment_spec (ps : List PatientProfile) (cfg : CohortConfig)
    (sh : List PatientProfile → List PatientProfile) (nr outr : Nat → ℚ)
    (preds : List Prediction)
    (hsh : (sh (eligibleFilter ps)).Perm (eligibleFilter ps))
    (hfresh : ∀ p ∈ ps, p.actualOutcome = none) :
    (∀ rec ∈ classifyPatientRisk ps cfg sh nr outr (EngineOutcome.parsed preds),
        1 ≤ rec.monthsOnCurrentTherapy ∧
        (rec.split = some Split.TRAIN ∨ rec.split = some Split.TEST)) ∧
    (∀ (j : Nat) (rec : PatientProfile),
      (classifyPatientRisk ps cfg sh nr outr EngineOutcome.callFailure)[j]?
          = some rec →
      rec.split = some Split.TRAIN ∧ rec.actualOutcome = none) := by
  constructor
  · intro rec hrec
    simp only [classifyPatientRisk] at hrec
    obtain ⟨i, p, hp, hrec⟩ := mem_successMap _ _ _ _ _ _ _ _ hrec
    subst hrec
    have hpmem : p ∈ eligibleFilter ps := hsh.mem_iff.mp hp
    have hfil := List.mem_filter.mp hpmem
    constructor
    · simpa using hfil.2
    · obtain ⟨-, -, hsplit, -⟩ := successRecord_proj cfg nr outr preds _ i p
      rw [hsplit]
      by_cases hlt : (i : Int) < jsFloor (((sh (eligibleFilter ps)).length : ℚ)
          * (1 - cfg.trainTestSplit))
      · exact Or.inl (by rw [if_pos hlt])
      · exact Or.inr (by rw [if_neg hlt])
  · intro j rec h
    simp only [classifyPatientRisk, List.getElem?_map] at h
    obtain ⟨p, hp, hrec⟩ := Option.map_eq_some'.mp h
    subst hrec
    exact ⟨rfl, hfresh p (mem_of_getElem?_eq ps j p hp)⟩

/-- Witness for C8 (amended): concrete run with one eligible and one
ineligible subject; the fallback record of the ineligible subject has split
TRAIN and no outcome. -/
theorem split_assignment_spec_witness :
    (totalFallbackRecord (mkSubject "q" 0)).split = some Split.TRAIN ∧
    (totalFallbackRecord (mkSubject "q" 0)).actualOutcome = none := by
  have hfresh : ∀ p ∈ [mkSubject "p" 5, mkSubject "q" 0], p.actualOutcome = none := by
    intro p hp
    simp only [List.mem_cons, List.mem_singleton] at hp
    rcases hp with rfl | rfl | h
    · rfl
    · rfl
    · cases h
  have h := split_assignment_spec [mkSubject "p" 5, mkSubject "q" 0] cfg0
    (fun l => l) zeroRand zeroRand [] (List.Perm.refl _) hfresh
  exact h.2 1 (totalFallbackRecord (mkSubject "q" 0)) (by simp [classifyPatientRisk])

/-- Counterexample to C2 as stated over "every run": on a total-fallback run
with one ineligible subject, |TRAIN| + |TEST| over the output is 1 while the
number of eligible subjects is 0. -/
theorem fallback_run_violates_partition_counts :
    (classifyPatientRisk [mkSubject "q" 0] cfg0 (fun l => l) zeroRand zeroRand
        EngineOutcome.callFailure).countP
        (fun r => decide (r.split = some Split.TRAIN))
      + (classifyPatientRisk [mkSubject "q" 0] cfg0 (fun l => l) zeroRand zeroRand
        EngineOutcome.callFailure).countP
        (fun r => decide (r.split = some Split.TEST)) = 1 ∧
    (eligibleFilter [mkSubject "q" 0]).length = 0 ∧ (1 : Nat) ≠ 0 := by
  refine ⟨?_, ?_, by norm_num⟩
  · simp [classifyPatientRisk, totalFallbackRecord, List.countP_cons]
  · simp [eligibleFilter, mkSubject]

/-- C2 amended: on every engine-success run (the shuffle being a permutation),
a subject is eligible iff monthsOnCurrentTherapy ≥ 1, the eligible subjects
are partitioned at splitIndex = floor(N·(1−trainTestSplit)) — shuffled
positions before splitIndex TRAIN, from splitIndex on TEST — and
|TRAIN| + |TEST| equals the number of eligible subjects, each landing in
exactly one partition.  (On a total-fallback run the output instead covers
every input subject, all TRAIN.) -/
theorem cohort_split_spec (ps : List PatientProfile) (cfg : CohortConfig)
    (sh : List PatientProfile → List PatientProfile) (nr outr : Nat → ℚ)
    (preds : List Prediction)
    (hsh : (sh (eligibleFilter ps)).Perm (eligibleFilter ps)) :
    (∀ p : PatientProfile,
        p ∈ eligibleFilter ps ↔ p ∈ ps ∧ 1 ≤ p.monthsOnCurrentTherapy) ∧
    (classifyPatientRisk ps cfg sh nr outr (EngineOutcome.parsed preds)).countP
        (fun r => decide (r.split = some Split.TRAIN))
      + (classifyPatientRisk ps cfg sh nr outr (EngineOutcome.parsed preds)).countP
        (fun r => decide (r.split = some Split.TEST))
      = (eligibleFilter ps).length ∧
    (∀ (i : Nat) (rec : PatientProfile),
      (classifyPatientRisk ps cfg sh nr outr (EngineOutcome.parsed preds))[i]?
          = some rec →
      (rec.split = some Split.TRAIN ↔
          (i : Int) < jsFloor (((eligibleFilter ps).length : ℚ)
            * (1 - cfg.trainTestSplit))) ∧
      (rec.split = some Split.TEST ↔
          ¬ (i : Int) < jsFloor (((eligibleFilter ps).length : ℚ)
            * (1 - cfg.trainTestSplit)))) := by
  have hlen : (sh (eligibleFilter ps)).length = (eligibleFilter ps).length :=
    hsh.length_eq
  refine ⟨?_, ?_, ?_⟩
  · intro p
    simp [eligibleFilter, List.mem_filter]
  · rw [countP_split_partition _ (classify_parsed_split_or ps cfg sh nr outr preds)]
    simp only [classifyPatientRisk]
    rw [successMap_length]
    exact hlen
  · intro i rec h
    obtain ⟨p, hp, hrec⟩ := classify_parsed_getElem ps cfg sh nr outr preds i rec h
    subst hrec
    obtain ⟨-, -, hsplit, -⟩ := successRecord_proj cfg nr outr preds _ i p
    rw [hsplit, hlen]
    by_cases hlt : (i : Int) < jsFloor (((eligibleFilter ps).length : ℚ)
        * (1 - cfg.trainTestSplit))
    · rw [if_pos hlt]
      constructor <;> simp [hlt]
    · rw [if_neg hlt]
      constructor <;> simp [hlt]

/-- Witness for C2 (amended): a concrete success run with one eligible and one
ineligible subject has |TRAIN| + |TEST| = |eligible| = 1. -/
theorem cohort_split_spec_witness :
    (classifyPatientRisk [mkSubject "p" 5, mkSubject "q" 0] cfg0 (fun l => l)
        zeroRand zeroRand (EngineOutcome.parsed [])).countP
        (fun r => decide (r.split = some Split.TRAIN))
      + (classifyPatientRisk [mkSubject "p" 5, mkSubject "q" 0] cfg0 (fun l => l)
        zeroRand zeroRand (EngineOutcome.parsed [])).countP
        (fun r => decide (r.split = some Split.TEST))
      = (eligibleFilter [mkSubject "p" 5, mkSubject "q" 0]).length :=
  (cohort_split_spec [mkSubject "p" 5, mkSubject "q" 0] cfg0 (fun l => l)
    zeroRand zeroRand [] (List.Perm.refl _)).2.1

end PharmaFlow
